import Mathlib

/-!
Verification development for the insider-trading core of the eteam-signal
repository.  Python float arithmetic is modelled exactly over ℚ and ℝ;
calendar dates are modelled as day numbers in ℤ, so that a Python
expression of the form (d1 - d2).days becomes plain integer subtraction.
Transactions, anomalies and signals follow src/src/models/insider_schema.py;
the store model follows the SQL issued by src/src/services/insider_store.py.
-/

namespace ETeamSignal

/-- Transaction codes from src/src/models/insider_schema.py (TransactionCode). -/
inductive TransactionCode where
  | P | S | A | D | C | M | O
deriving DecidableEq, Repr

/-- Anomaly types from src/src/models/insider_schema.py (AnomalyType). -/
inductive AnomalyType where
  | VOLUME | FREQUENCY | CLUSTER | HOLDINGS_PERCENTAGE | TIMING
deriving DecidableEq, Repr

/-- Sentiment labels from src/src/models/insider_schema.py (InsiderSentiment). -/
inductive InsiderSentiment where
  | BEARISH | NEUTRAL | BULLISH
deriving DecidableEq, Repr

/-- InsiderTransaction from src/src/models/insider_schema.py.  Dates are day
numbers (ℤ); float fields are ℚ so that store equality stays decidable. -/
structure InsiderTransaction where
  ticker : String
  insider_name : String
  insider_title : String := ""
  is_officer : Bool := false
  is_director : Bool := false
  transaction_date : ℤ
  transaction_code : TransactionCode
  shares : ℚ
  price_per_share : Option ℚ := none
  total_value : Option ℚ := none
  shares_owned_after : Option ℚ := none
  is_10b5_1 : Bool := false
  filing_date : ℤ
deriving DecidableEq, Repr

/-- InsiderProfile from src/src/models/insider_schema.py. -/
structure InsiderProfile where
  insider_name : String
  ticker : String
  avg_transaction_size : ℚ := 0
  avg_frequency_days : ℚ := 0
  total_transactions : ℕ := 0
  typical_sell_percentage : ℚ := 0
deriving DecidableEq, Repr

/-- InsiderAnomaly from src/src/models/insider_schema.py.  The severity and
z-score are real numbers (the volume rule divides by a square root); the
human-readable description string carries a constant tag because no claim
depends on its formatted contents. -/
structure InsiderAnomaly where
  ticker : String
  insider_name : String
  anomaly_type : AnomalyType
  severity_score : ℝ
  z_score : ℝ := 0
  description : String := ""
  transactions : List InsiderTransaction := []

/-- InsiderSignal from src/src/models/insider_schema.py. -/
structure InsiderSignal where
  ticker : String
  analysis_date : ℤ := 0
  anomaly_score : ℝ := 0
  anomalies : List InsiderAnomaly := []
  insider_sentiment : InsiderSentiment := .NEUTRAL
  recommendation : String := ""
  composite_alpha_score : Option ℝ := none

/-- AlphaSignal from src/src/models/schema.py (the fields the composite
engine reads). -/
structure AlphaSignal where
  ticker : String
  signal_score : ℝ
  confidence : ℝ
  summary : String := ""

/-! ## TransactionStore model (src/src/services/insider_store.py)

The insider_transactions table is modelled as a list of rows in insertion
order.  The INSERT ... ON CONFLICT (ticker, insider_name, transaction_date,
shares, transaction_code) DO NOTHING RETURNING id statement creates a row
exactly when no row with the same identity key exists, and upsert_transaction
returns whether a row came back. -/

/-- The identity key of the insider_transactions table, as named in the ON
CONFLICT clause of upsert_transaction. -/
def txKey (t : InsiderTransaction) :
    String × String × ℤ × ℚ × TransactionCode :=
  (t.ticker, t.insider_name, t.transaction_date, t.shares, t.transaction_code)

/-- Whether some stored row conflicts with t on the identity key. -/
def keyMem (rows : List InsiderTransaction) (t : InsiderTransaction) : Bool :=
  rows.any fun r => decide (txKey r = txKey t)

/-- upsert_transaction from src/src/services/insider_store.py: the SQL inserts
the row unless the identity key conflicts, and the method reports whether a
new row was created. -/
def upsert_transaction (rows : List InsiderTransaction)
    (t : InsiderTransaction) : Bool × List InsiderTransaction :=
  if keyMem rows t then (false, rows) else (true, rows ++ [t])

/-- upsert_transactions from src/src/services/insider_store.py: sequential
loop over the batch, counting the calls that created a row. -/
def upsert_transactions :
    List InsiderTransaction → List InsiderTransaction →
    ℕ × List InsiderTransaction
  | rows, [] => (0, rows)
  | rows, t :: rest =>
    let r := upsert_transaction rows t
    let s := upsert_transactions r.2 rest
    ((if r.1 then 1 else 0) + s.1, s.2)

lemma keyMem_append (rows rows2 : List InsiderTransaction)
    (t : InsiderTransaction) :
    keyMem (rows ++ rows2) t = (keyMem rows t || keyMem rows2 t) := by
  simp [keyMem, List.any_append]

lemma keyMem_upsert_mono (rows : List InsiderTransaction)
    (t u : InsiderTransaction) (h : keyMem rows u = true) :
    keyMem (upsert_transaction rows t).2 u = true := by
  unfold upsert_transaction
  split <;> simp [keyMem_append, h]

lemma keyMem_upsert_self (rows : List InsiderTransaction)
    (t : InsiderTransaction) :
    keyMem (upsert_transaction rows t).2 t = true := by
  unfold upsert_transaction
  split
  · next h => exact h
  · simp [keyMem_append, keyMem]

lemma keyMem_upsertMany_mono (batch : List InsiderTransaction) :
    ∀ rows u, keyMem rows u = true →
      keyMem (upsert_transactions rows batch).2 u = true := by
  induction batch with
  | nil => intro rows u h; simpa [upsert_transactions] using h
  | cons t rest ih =>
    intro rows u h
    simpa [upsert_transactions] using
      ih (upsert_transaction rows t).2 u (keyMem_upsert_mono rows t u h)

lemma upsertMany_all_mem (batch : List InsiderTransaction) :
    ∀ rows, ∀ u ∈ batch,
      keyMem (upsert_transactions rows batch).2 u = true := by
  induction batch with
  | nil => intro rows u h; cases h
  | cons t rest ih =>
    intro rows u hu
    rcases List.mem_cons.mp hu with h | h
    · subst h
      simpa [upsert_transactions] using
        keyMem_upsertMany_mono rest (upsert_transaction rows u).2 u
          (keyMem_upsert_self rows u)
    · simpa [upsert_transactions] using ih (upsert_transaction rows t).2 u h

lemma upsertMany_count_len (batch : List InsiderTransaction) :
    ∀ rows, (upsert_transactions rows batch).1 + rows.length
      = (upsert_transactions rows batch).2.length := by
  induction batch with
  | nil => intro rows; simp [upsert_transactions]
  | cons t rest ih =>
    intro rows
    have h := ih (upsert_transaction rows t).2
    unfold upsert_transactions
    unfold upsert_transaction at h ⊢
    split at h
    all_goals simp_all
    all_goals omega

lemma upsertMany_no_new (batch : List InsiderTransaction) :
    ∀ rows, (∀ u ∈ batch, keyMem rows u = true) →
      upsert_transactions rows batch = (0, rows) := by
  induction batch with
  | nil => intro rows _; rfl
  | cons t rest ih =>
    intro rows h
    have ht : keyMem rows t = true := h t (by simp)
    have hrest : ∀ u ∈ rest, keyMem rows u = true := fun u hu => h u (by simp [hu])
    simp [upsert_transactions, upsert_transaction, ht, ih rows hrest]

/-- Claim C1: upsert_transaction returns true exactly when no row with the
identity key (ticker, insider_name, transaction_date, shares,
transaction_code) already exists, a duplicate leaves the table untouched,
upsert_transactions returns exactly the number of rows newly committed, and
replaying the same batch a second time returns 0 and leaves the table
unchanged. -/
theorem upsert_replay_idempotent (rows : List InsiderTransaction)
    (t : InsiderTransaction) (batch : List InsiderTransaction) :
    (upsert_transaction rows t).1 = !(keyMem rows t)
    ∧ (upsert_transaction rows t).2
        = (if keyMem rows t then rows else rows ++ [t])
    ∧ (upsert_transactions rows batch).1 + rows.length
        = (upsert_transactions rows batch).2.length
    ∧ upsert_transactions (upsert_transactions rows batch).2 batch
        = (0, (upsert_transactions rows batch).2) := by
  refine ⟨?_, ?_, upsertMany_count_len batch rows, ?_⟩
  · unfold upsert_transaction; split <;> simp_all
  · unfold upsert_transaction; split <;> simp_all
  · exact upsertMany_no_new batch _ (upsertMany_all_mem batch rows)

/-! ## AnomalyEngine model (src/src/agents/insider_analyzer.py)

Python truthiness on optional floats matters in two places of _tier1_detect:
the filter `if t.price_per_share` and the guard `if latest.shares_owned_after`
treat both None and 0.0 as false. -/

/-- Python truthiness of an optional float: None and 0.0 are falsy. -/
def qTruthy : Option ℚ → Bool
  | none => false
  | some x => decide (x ≠ 0)

/-- Python `x or 0` on an optional float. -/
def qOrZero (o : Option ℚ) : ℚ := o.getD 0

/-- sizes in _tier1_detect: `[t.shares * (t.price_per_share or 0) for t in
txns if t.price_per_share]`. -/
def pricedSizes (txns : List InsiderTransaction) : List ℚ :=
  (txns.filter fun t => qTruthy t.price_per_share).map
    fun t => t.shares * qOrZero t.price_per_share

/-- np.mean over a list of rationals. -/
def qMean (xs : List ℚ) : ℚ := xs.sum / (xs.length : ℚ)

/-- Sample variance with ddof = 1, the square of np.std(sizes, ddof=1). -/
def sampleVar (xs : List ℚ) : ℚ :=
  ((xs.map fun x => (x - qMean xs) ^ 2).sum) / ((xs.length : ℚ) - 1)

/-- np.std(sizes, ddof=1) as a real number. -/
noncomputable def sampleStd (xs : List ℚ) : ℝ :=
  Real.sqrt ((sampleVar xs : ℚ) : ℝ)

/-- latest_size in _tier1_detect: `latest.shares * (latest.price_per_share
or 0)`. -/
def latestSize (latest : InsiderTransaction) : ℚ :=
  latest.shares * qOrZero latest.price_per_share

/-- z in _tier1_detect: `(latest_size - mean) / std`. -/
noncomputable def volumeZ (txns : List InsiderTransaction)
    (latest : InsiderTransaction) : ℝ :=
  (((latestSize latest : ℚ) : ℝ) - ((qMean (pricedSizes txns) : ℚ) : ℝ))
    / sampleStd (pricedSizes txns)

/-- Volume block of _tier1_detect: requires at least 3 priced sizes, a
positive standard deviation and |z| > VOLUME_Z_THRESHOLD = 2.0. -/
noncomputable def volumePart (ticker : String)
    (txns : List InsiderTransaction) (latest : InsiderTransaction) :
    List InsiderAnomaly :=
  if 3 ≤ (pricedSizes txns).length then
    if 0 < sampleStd (pricedSizes txns) then
      if 2 < |volumeZ txns latest| then
        [{ ticker := ticker, insider_name := latest.insider_name,
           anomaly_type := .VOLUME,
           severity_score := min 1 (|volumeZ txns latest| / 5),
           z_score := volumeZ txns latest, description := "volume",
           transactions := [latest] }]
      else []
    else []
  else []

/-- Frequency block of _tier1_detect.  The code computes
`days_since = (date.today() - txns[0].transaction_date).days`, requires it
to be positive, and compares `days_since / profile.avg_frequency_days`
against FREQUENCY_RATIO_THRESHOLD = 0.25. -/
def frequencyPart (today : ℤ) (ticker : String)
    (txns : List InsiderTransaction) (profile : InsiderProfile) :
    List InsiderAnomaly :=
  match txns with
  | t0 :: t1 :: _ =>
    if 0 < profile.avg_frequency_days then
      if 0 < today - t0.transaction_date then
        if ((today - t0.transaction_date : ℤ) : ℚ)
            / profile.avg_frequency_days < 0.25 then
          [{ ticker := ticker, insider_name := t0.insider_name,
             anomaly_type := .FREQUENCY,
             severity_score := min 1 (1 -
               ((((today - t0.transaction_date : ℤ) : ℚ)
                 / profile.avg_frequency_days : ℚ) : ℝ)),
             z_score := 0, description := "frequency",
             transactions := [t0, t1] }]
        else []
      else []
    else []
  | _ => []

/-- Holdings-percentage block of _tier1_detect: `if latest.transaction_code
== TransactionCode.SALE and latest.shares_owned_after:` (truthiness) then
pct_sold > HOLDINGS_PCT_THRESHOLD = 0.20. -/
def holdingsPart (ticker : String) (latest : InsiderTransaction) :
    List InsiderAnomaly :=
  if latest.transaction_code = .S ∧ qTruthy latest.shares_owned_after then
    if 0 < latest.shares + qOrZero latest.shares_owned_after then
      if 0.20 < latest.shares
          / (latest.shares + qOrZero latest.shares_owned_after) then
        [{ ticker := ticker, insider_name := latest.insider_name,
           anomaly_type := .HOLDINGS_PERCENTAGE,
           severity_score := min 1 ((latest.shares
             / (latest.shares + qOrZero latest.shares_owned_after) : ℚ) : ℝ),
           z_score := 0, description := "holdings",
           transactions := [latest] }]
      else []
    else []
  else []

/-- _tier1_detect from src/src/agents/insider_analyzer.py: on a non-empty
transaction list (newest first) it appends, in order, the volume, frequency
and holdings-percentage anomalies.  `today` stands for date.today(). -/
noncomputable def tier1Detect (today : ℤ) (txns : List InsiderTransaction)
    (profile : InsiderProfile) (ticker : String) : List InsiderAnomaly :=
  match txns with
  | [] => []
  | latest :: _ =>
    volumePart ticker txns latest
      ++ frequencyPart today ticker txns profile
      ++ holdingsPart ticker latest

/-! ### Composite scoring (_compute_anomaly_score) -/

/-- Whether the character list n occurs at the start of h. -/
def listStartsWith : List Char → List Char → Bool
  | [], _ => true
  | _ :: _, [] => false
  | a :: as, b :: bs => a == b && listStartsWith as bs

/-- Whether the character list n occurs anywhere inside h. -/
def listHasSub (n : List Char) : List Char → Bool
  | [] => listStartsWith n []
  | c :: rest => listStartsWith n (c :: rest) || listHasSub n rest

/-- Python `needle in hay` on strings. -/
def strContains (hay needle : String) : Bool :=
  listHasSub needle.toList hay.toList

/-- max(severity for anomalies, default 0.0). -/
def tier1Max (anomalies : List InsiderAnomaly) : ℝ :=
  (anomalies.map fun a => a.severity_score).foldr max 0

/-- len(set(a.anomaly_type for a in anomalies)). -/
def typeCount (anomalies : List InsiderAnomaly) : ℕ :=
  ((anomalies.map fun a => a.anomaly_type).dedup).length

/-- co_occurrence_boost in _compute_anomaly_score. -/
noncomputable def coOccurrenceBoost (anomalies : List InsiderAnomaly) : ℝ :=
  if 1 < typeCount anomalies then
    min 0.2 ((typeCount anomalies : ℝ) * 0.05)
  else 0

/-- One step of the role-weighting loop over txns[:5] with the elif chain of
_compute_anomaly_score (ROLE_WEIGHTS: ceo 1.5, cfo 1.5, officer 1.2). -/
def roleStep (w : ℝ) (t : InsiderTransaction) : ℝ :=
  if strContains t.insider_title.toLower "ceo"
      || strContains t.insider_title.toLower "chief executive" then
    max w 1.5
  else if strContains t.insider_title.toLower "cfo"
      || strContains t.insider_title.toLower "chief financial" then
    max w 1.5
  else if t.is_officer then max w 1.2
  else w

/-- role_weight in _compute_anomaly_score, starting at 1.0. -/
def roleWeight (txns : List InsiderTransaction) : ℝ :=
  (txns.take 5).foldl roleStep 1

/-- sum(1 for tx in txns[:10] if tx.is_10b5_1). -/
def plannedCount (txns : List InsiderTransaction) : ℕ :=
  ((txns.take 10).filter fun t => t.is_10b5_1).length

/-- planned_ratio in _compute_anomaly_score. -/
noncomputable def plannedRatioOf (txns : List InsiderTransaction) : ℝ :=
  (plannedCount txns : ℝ) / ((max (txns.take 10).length 1 : ℕ) : ℝ)

/-- planned_discount = 1 - planned_ratio * (1 - PLANNED_TRADE_DISCOUNT),
with PLANNED_TRADE_DISCOUNT = 0.5. -/
noncomputable def plannedDiscount (txns : List InsiderTransaction) : ℝ :=
  1 - plannedRatioOf txns * (1 - 0.5)

/-- np.clip(x, 0.0, 1.0). -/
noncomputable def clip01 (x : ℝ) : ℝ := min (max x 0) 1

/-- base = 0.6 * tier1_max + 0.4 * ml_score + co_occurrence_boost. -/
noncomputable def scoreBase (anomalies : List InsiderAnomaly)
    (mlScore : ℝ) : ℝ :=
  0.6 * tier1Max anomalies + 0.4 * mlScore + coOccurrenceBoost anomalies

/-- _compute_anomaly_score from src/src/agents/insider_analyzer.py,
including the early return when there is no anomaly and ml_score == 0. -/
noncomputable def computeAnomalyScore (anomalies : List InsiderAnomaly)
    (mlScore : ℝ) (txns : List InsiderTransaction) : ℝ :=
  if anomalies.isEmpty ∧ mlScore = 0 then 0
  else
    clip01 (scoreBase anomalies mlScore * roleWeight txns
      * plannedDiscount txns)

/-! ## FilingMonitor model (src/src/services/filing_monitor.py)

State touched by the monitor: the insider_transactions rows and the
monitor_watermarks table (an association of feed name to accession). -/

/-- Persistent store state reachable from the monitor. -/
structure StoreState where
  transactions : List InsiderTransaction
  watermarks : List (String × String)
deriving DecidableEq, Repr

/-- FEED_NAME = "form4_atom" in src/src/services/filing_monitor.py. -/
def FEED_NAME : String := "form4_atom"

/-- get_watermark: look the feed up in monitor_watermarks. -/
def getWatermark (st : StoreState) (feed : String) : Option String :=
  (st.watermarks.find? fun p => p.1 == feed).map fun p => p.2

/-- ON CONFLICT (feed_name) DO UPDATE semantics of set_watermark. -/
def upsertAssoc : List (String × String) → String → String →
    List (String × String)
  | [], feed, acc => [(feed, acc)]
  | (k, v) :: rest, feed, acc =>
    if k == feed then (feed, acc) :: rest
    else (k, v) :: upsertAssoc rest feed acc

/-- set_watermark from src/src/services/insider_store.py. -/
def setWatermark (st : StoreState) (feed acc : String) : StoreState :=
  { st with watermarks := upsertAssoc st.watermarks feed acc }

/-- _parse_feed_entries from src/src/services/filing_monitor.py, on the list
of entry ids of the page (newest first): collect entries until one equals
the watermark, then stop. -/
def parseFeedEntries (entries : List String) (watermark : Option String) :
    List String :=
  match entries with
  | [] => []
  | a :: rest =>
    if some a = watermark then [] else a :: parseFeedEntries rest watermark

/-- _process_accession from src/src/services/filing_monitor.py; its body is
`pass`, so it returns the store unchanged. -/
def processAccession (st : StoreState) (_acc : String) : StoreState := st

/-- _poll_atom_feed from src/src/services/filing_monitor.py, given the page
of accession ids already extracted from the fetched XML: compute the new
entries against the stored watermark; if there are none, stop; otherwise
process each and finally advance the watermark to new_accessions[0]. -/
def pollAtomFeed (st : StoreState) (page : List String) : StoreState :=
  let newAccessions := parseFeedEntries page (getWatermark st FEED_NAME)
  match newAccessions with
  | [] => st
  | latest :: rest =>
    setWatermark ((latest :: rest).foldl processAccession st)
      FEED_NAME latest

/-- _run_batch_sweep from src/src/services/filing_monitor.py, given the
fetched batch: upsert it, and return the new store, the inserted count and
the argument handed to the on_new_filings hook (the code passes
txns[:inserted] when inserted > 0 and a hook is configured). -/
def runBatchSweep (st : StoreState) (fetched : List InsiderTransaction) :
    StoreState × ℕ × Option (List InsiderTransaction) :=
  let r := upsert_transactions st.transactions fetched
  ({ st with transactions := r.2 }, r.1,
    if 0 < r.1 then some (fetched.take r.1) else none)

/-- Modelled from the spec: the "newly inserted subset" of a fetched batch —
the fetched transactions whose upsert created a row, in fetch order.  The
monitor code does not compute this set; the spec says the post-insert hook
receives it. -/
def newlyInsertedSubset (rows : List InsiderTransaction) :
    List InsiderTransaction → List InsiderTransaction
  | [] => []
  | t :: rest =>
    let r := upsert_transaction rows t
    if r.1 then t :: newlyInsertedSubset r.2 rest
    else newlyInsertedSubset r.2 rest

/-! ## CompositeSignalEngine model (src/src/agents/composite_signal.py) -/

/-- Python round(x, 4): round half to even at four decimal places. -/
noncomputable def pyRound4 (x : ℝ) : ℝ :=
  let n : ℤ := ⌊x * 10000⌋
  let r : ℝ := x * 10000 - n
  (if r < 1 / 2 then (n : ℝ)
   else if 1 / 2 < r then (n : ℝ) + 1
   else if 2 ∣ n then (n : ℝ) else (n : ℝ) + 1) / 10000

/-- _blend_scores from src/src/agents/composite_signal.py. -/
noncomputable def blendScores (filingScore insiderScore : ℝ) : ℝ :=
  let blended := 0.5 * filingScore + 0.5 * insiderScore
  pyRound4
    (if 0.5 < filingScore ∧ 0.5 < insiderScore then min 1 (blended * 1.2)
     else blended)

/-- InsiderSignal(ticker=ticker): the fresh zero-score signal the engine
builds when no insider signal is supplied (analysis_date normalised to 0). -/
def freshSignal (ticker : String) : InsiderSignal := { ticker := ticker }

/-- Action prong of _fallback_recommendation; the formatted score suffix of
the template is elided because no claim inspects it. -/
noncomputable def fallbackRecommendation (ticker : String)
    (_signal : InsiderSignal) (composite : ℝ) : String :=
  (if 0.7 < composite then "Strong sell signal"
   else if 0.4 < composite then "Elevated caution"
   else "No immediate action") ++ " for " ++ ticker ++ "."

/-- compose from src/src/agents/composite_signal.py.  `narr` is the outcome
of the narrator call: some text on success, none when the LLM raised and the
deterministic fallback is used.  The method mutates the base signal, setting
composite_alpha_score and then recommendation, and returns it. -/
noncomputable def compose (ticker : String) (filing : Option AlphaSignal)
    (insider : Option InsiderSignal) (narr : Option String) : InsiderSignal :=
  let base := insider.getD (freshSignal ticker)
  let filingScore : ℝ := match filing with
    | some fs => fs.signal_score
    | none => 0
  let insiderScore := base.anomaly_score
  let composite := blendScores filingScore insiderScore
  let withScore := { base with composite_alpha_score := some composite }
  let recText := match narr with
    | some s => s
    | none => fallbackRecommendation ticker withScore composite
  { withScore with recommendation := recText }

/-- filing.score if present else 0, as read by compose. -/
def filingScoreOf (filing : Option AlphaSignal) : ℝ :=
  match filing with
  | some fs => fs.signal_score
  | none => 0

/-- insider.anomaly_score if present else 0, as read by compose. -/
def insiderScoreOf (insider : Option InsiderSignal) : ℝ :=
  match insider with
  | some s => s.anomaly_score
  | none => 0

/-! ## Rounding lemmas -/

lemma pyRound4_lb (x : ℝ) : x - 1 / 20000 ≤ pyRound4 x := by
  have h1 : (⌊x * 10000⌋ : ℝ) ≤ x * 10000 := Int.floor_le _
  have h2 : x * 10000 < (⌊x * 10000⌋ : ℝ) + 1 := Int.lt_floor_add_one _
  simp only [pyRound4]
  split_ifs with a b c <;>
    (rw [le_div_iff₀ (show (0 : ℝ) < 10000 by norm_num)]; linarith)

lemma pyRound4_exact (x : ℝ) (n : ℤ) (h : x * 10000 = (n : ℝ)) :
    pyRound4 x = x := by
  have hf : ⌊x * 10000⌋ = n := by rw [h]; exact Int.floor_intCast n
  simp only [pyRound4]
  rw [hf, h, sub_self]
  rw [if_pos (show (0 : ℝ) < 1 / 2 by norm_num)]
  rw [eq_comm, eq_div_iff (show (10000 : ℝ) ≠ 0 by norm_num)]
  linarith

/-- Claim C10: when an insider signal is supplied, compose returns it with
its ticker, analysis_date, anomaly_score, anomalies and insider_sentiment
unchanged (only composite_alpha_score and recommendation are set). -/
theorem compose_preserves_insider_fields (ticker : String)
    (filing : Option AlphaSignal) (sig : InsiderSignal)
    (narr : Option String) :
    (compose ticker filing (some sig) narr).ticker = sig.ticker
    ∧ (compose ticker filing (some sig) narr).analysis_date
        = sig.analysis_date
    ∧ (compose ticker filing (some sig) narr).anomaly_score
        = sig.anomaly_score
    ∧ (compose ticker filing (some sig) narr).anomalies = sig.anomalies
    ∧ (compose ticker filing (some sig) narr).insider_sentiment
        = sig.insider_sentiment := by
  cases narr <;> exact ⟨rfl, rfl, rfl, rfl, rfl⟩

/-- Claim C6: compose sets composite_alpha_score to the rounded blend
0.5·f + 0.5·i, boosted to min(1, 1.2·blend) when both scores exceed 0.5;
under that convergence condition the composite is at least 0.5·(f + i), and
at f = i = 0.8 the blend is exactly 0.96 (hence within [0.96, 1]). -/
theorem compose_blend_convergence (ticker : String)
    (filing : Option AlphaSignal) (insider : Option InsiderSignal)
    (narr : Option String) (hf1 : filingScoreOf filing ≤ 1)
    (hi1 : insiderScoreOf insider ≤ 1) :
    (compose ticker filing insider narr).composite_alpha_score
      = some (pyRound4
          (if 0.5 < filingScoreOf filing ∧ 0.5 < insiderScoreOf insider then
            min 1 ((0.5 * filingScoreOf filing
              + 0.5 * insiderScoreOf insider) * 1.2)
          else 0.5 * filingScoreOf filing + 0.5 * insiderScoreOf insider))
    ∧ (0.5 < filingScoreOf filing → 0.5 < insiderScoreOf insider →
        0.5 * (filingScoreOf filing + insiderScoreOf insider)
          ≤ blendScores (filingScoreOf filing) (insiderScoreOf insider))
    ∧ blendScores 0.8 0.8 = 0.96 := by
  refine ⟨?_, ?_, ?_⟩
  · cases filing <;> cases insider <;> cases narr <;>
      simp [compose, blendScores, filingScoreOf, insiderScoreOf, freshSignal]
  · intro hf5 hi5
    have hb : blendScores (filingScoreOf filing) (insiderScoreOf insider)
        = pyRound4 (min 1 ((0.5 * filingScoreOf filing
            + 0.5 * insiderScoreOf insider) * 1.2)) := by
      simp only [blendScores, if_pos (And.intro hf5 hi5)]
    rw [hb]
    rcases le_or_lt ((0.5 * filingScoreOf filing
        + 0.5 * insiderScoreOf insider) * 1.2) 1 with hle | hgt
    · rw [min_eq_right hle]
      have := pyRound4_lb ((0.5 * filingScoreOf filing
        + 0.5 * insiderScoreOf insider) * 1.2)
      linarith
    · rw [min_eq_left (le_of_lt hgt),
        pyRound4_exact 1 10000 (by norm_num)]
      linarith
  · have hb : blendScores 0.8 0.8 = pyRound4 0.96 := by
      norm_num [blendScores, min_def]
    rw [hb, pyRound4_exact 0.96 9600 (by norm_num)]

/-- Witness for compose_blend_convergence at f = i = 0.8. -/
theorem compose_blend_convergence_witness :
    (0.5 < filingScoreOf (some ⟨"AAPL", 0.8, 0.8, ""⟩) →
      0.5 < insiderScoreOf (some { ticker := "AAPL", anomaly_score := 0.8 }) →
      0.5 * (filingScoreOf (some ⟨"AAPL", 0.8, 0.8, ""⟩)
        + insiderScoreOf (some { ticker := "AAPL", anomaly_score := 0.8 }))
        ≤ blendScores (filingScoreOf (some ⟨"AAPL", 0.8, 0.8, ""⟩))
            (insiderScoreOf (some { ticker := "AAPL", anomaly_score := 0.8 })))
    ∧ blendScores 0.8 0.8 = 0.96 :=
  ⟨(compose_blend_convergence "AAPL" (some ⟨"AAPL", 0.8, 0.8, ""⟩)
      (some { ticker := "AAPL", anomaly_score := 0.8 }) (some "ok")
      (by norm_num [filingScoreOf]) (by norm_num [insiderScoreOf])).2.1,
   (compose_blend_convergence "AAPL" (some ⟨"AAPL", 0.8, 0.8, ""⟩)
      (some { ticker := "AAPL", anomaly_score := 0.8 }) (some "ok")
      (by norm_num [filingScoreOf]) (by norm_num [insiderScoreOf])).2.2⟩

/-! ## ATOM poller lemmas -/

lemma foldl_processAccession (l : List String) :
    ∀ st : StoreState, l.foldl processAccession st = st := by
  induction l with
  | nil => intro st; rfl
  | cons a rest ih => intro st; exact ih st

lemma find_upsertAssoc (l : List (String × String)) (feed acc : String) :
    (upsertAssoc l feed acc).find? (fun p => p.1 == feed)
      = some (feed, acc) := by
  induction l with
  | nil => simp [upsertAssoc]
  | cons p rest ih =>
    by_cases h : p.1 == feed
    · cases p
      simp only [upsertAssoc]
      simp_all [List.find?]
    · cases p
      simp only [upsertAssoc]
      simp_all [List.find?]

lemma getWatermark_set (st : StoreState) (feed acc : String) :
    getWatermark (setWatermark st feed acc) feed = some acc := by
  simp [getWatermark, setWatermark, find_upsertAssoc]

lemma parse_none (entries : List String) :
    parseFeedEntries entries none = entries := by
  induction entries with
  | nil => rfl
  | cons a rest ih => simp [parseFeedEntries, ih]

lemma parse_split (entries : List String) (w : String) :
    parseFeedEntries entries (some w) = entries
    ∨ ∃ rest, entries = parseFeedEntries entries (some w) ++ w :: rest := by
  induction entries with
  | nil => exact Or.inl rfl
  | cons a rest ih =>
    by_cases h : a = w
    · subst h
      refine Or.inr ⟨rest, ?_⟩
      simp [parseFeedEntries]
    · have hne : ¬(some a = some w) := by simp [h]
      rcases ih with h1 | ⟨r, hr⟩
      · exact Or.inl (by simp [parseFeedEntries, hne, h1])
      · refine Or.inr ⟨r, ?_⟩
        simp [parseFeedEntries, hne]
        exact hr

lemma parse_not_watermark (entries : List String) (w : String) :
    ∀ a ∈ parseFeedEntries entries (some w), a ≠ w := by
  induction entries with
  | nil => intro a ha; cases ha
  | cons b rest ih =>
    intro a ha
    by_cases h : b = w
    · subst h
      simp [parseFeedEntries] at ha
    · have hne : ¬(some b = some w) := by simp [h]
      simp only [parseFeedEntries, if_neg hne, List.mem_cons] at ha
      rcases ha with h1 | h1
      · subst h1; exact h
      · exact ih a h1

/-- Claim C9: Path A per-accession processing is a stub, so an ATOM poll
never changes the transaction rows; a poll with no new entries leaves the
whole store untouched. -/
theorem path_a_processing_noop (st : StoreState) (page : List String) :
    (pollAtomFeed st page).transactions = st.transactions
    ∧ processAccession st (page.headD "") = st
    ∧ (parseFeedEntries page (getWatermark st FEED_NAME) = [] →
        pollAtomFeed st page = st) := by
  refine ⟨?_, rfl, ?_⟩
  · unfold pollAtomFeed
    cases h : parseFeedEntries page (getWatermark st FEED_NAME) with
    | nil => rfl
    | cons a rest =>
      show (setWatermark ((a :: rest).foldl processAccession st)
        FEED_NAME a).transactions = st.transactions
      rw [foldl_processAccession]
      rfl
  · intro h
    unfold pollAtomFeed
    rw [h]

/-- Witness for path_a_processing_noop: a poll of an empty page against an
empty store is the identity. -/
theorem path_a_processing_noop_witness :
    pollAtomFeed ⟨[], []⟩ [] = ⟨[], []⟩ :=
  (path_a_processing_noop ⟨[], []⟩ []).2.2 rfl

/-- Claim C7: the new entries of an ATOM page are exactly the prefix of the
page strictly before the first entry equal to the watermark (the whole page
when the watermark is absent), and when that set is non-empty the stored
watermark is advanced to the newest accession of the page, which is the
first element of the set. -/
theorem atom_poll_watermark_advance (entries page : List String)
    (st : StoreState)
    (hnew : parseFeedEntries page (getWatermark st FEED_NAME) ≠ []) :
    parseFeedEntries entries none = entries
    ∧ (∀ w, parseFeedEntries entries (some w) = entries
        ∨ ∃ rest, entries = parseFeedEntries entries (some w) ++ w :: rest)
    ∧ (∀ w, ∀ a ∈ parseFeedEntries entries (some w), a ≠ w)
    ∧ (∃ a rest, page = a :: rest
        ∧ parseFeedEntries page (getWatermark st FEED_NAME)
            = a :: parseFeedEntries rest (getWatermark st FEED_NAME)
        ∧ getWatermark (pollAtomFeed st page) FEED_NAME = some a) := by
  refine ⟨parse_none entries, fun w => parse_split entries w,
    fun w => parse_not_watermark entries w, ?_⟩
  obtain ⟨a, rest, hp⟩ : ∃ a rest, page = a :: rest := by
    cases page with
    | nil => simp [parseFeedEntries] at hnew
    | cons a rest => exact ⟨a, rest, rfl⟩
  subst hp
  have hcond : ¬(some a = getWatermark st FEED_NAME) := by
    intro hc
    simp [parseFeedEntries, hc] at hnew
  have hparse : parseFeedEntries (a :: rest) (getWatermark st FEED_NAME)
      = a :: parseFeedEntries rest (getWatermark st FEED_NAME) := by
    simp [parseFeedEntries, hcond]
  refine ⟨a, rest, rfl, hparse, ?_⟩
  simp only [pollAtomFeed, hparse]
  exact getWatermark_set _ FEED_NAME a

/-- Witness for atom_poll_watermark_advance: a page of three accessions
against a stored watermark equal to the oldest yields the two newest and
advances the watermark to the newest. -/
theorem atom_poll_watermark_advance_witness :
    ∃ a rest, ["acc3", "acc2", "acc1"] = a :: rest
      ∧ parseFeedEntries ["acc3", "acc2", "acc1"]
          (getWatermark ⟨[], [("form4_atom", "acc1")]⟩ FEED_NAME)
          = a :: parseFeedEntries rest
              (getWatermark ⟨[], [("form4_atom", "acc1")]⟩ FEED_NAME)
      ∧ getWatermark
          (pollAtomFeed ⟨[], [("form4_atom", "acc1")]⟩
            ["acc3", "acc2", "acc1"]) FEED_NAME = some a :=
  (atom_poll_watermark_advance [] ["acc3", "acc2", "acc1"]
    ⟨[], [("form4_atom", "acc1")]⟩ (by decide)).2.2.2

/-! ## Claim C8: the batch-sweep post-insert hook argument -/

/-- A transaction already present in the store before the sweep. -/
def c8T1 : InsiderTransaction :=
  { ticker := "AAA", insider_name := "X", transaction_date := 0,
    transaction_code := .S, shares := 1, filing_date := 0 }

/-- A fresh transaction, fetched after the duplicate. -/
def c8T2 : InsiderTransaction :=
  { ticker := "BBB", insider_name := "X", transaction_date := 0,
    transaction_code := .S, shares := 1, filing_date := 0 }

/-- Store already holding c8T1. -/
def c8Store : StoreState := ⟨[c8T1], []⟩

/-- Claim C8: sweeping the batch [c8T1, c8T2] over a store that already
holds c8T1 inserts exactly one row (c8T2), yet the hook receives
txns[:inserted] = [c8T1] — the duplicate — while the newly inserted subset
is [c8T2]. -/
theorem batch_sweep_hook_gets_wrong_subset :
    runBatchSweep c8Store [c8T1, c8T2]
      = (⟨[c8T1, c8T2], []⟩, 1, some [c8T1])
    ∧ newlyInsertedSubset c8Store.transactions [c8T1, c8T2] = [c8T2]
    ∧ c8T1.ticker = "AAA" ∧ c8T2.ticker = "BBB" := by
  decide

/-! ## Claim C2: the frequency rule measures the wrong gap -/

/-- Latest transaction of the failing input: one day before date.today(),
99 days after the previous one. -/
def c2Latest : InsiderTransaction :=
  { ticker := "T", insider_name := "A", transaction_date := 199,
    transaction_code := .P, shares := 1, filing_date := 199 }

/-- Previous transaction of the failing input. -/
def c2Prev : InsiderTransaction :=
  { ticker := "T", insider_name := "A", transaction_date := 100,
    transaction_code := .P, shares := 1, filing_date := 100 }

/-- Profile of the failing input; the store computes avg_frequency_days as
(max_date - min_date) / (total - 1) = 99 for these two transactions. -/
def c2Profile : InsiderProfile :=
  { insider_name := "A", ticker := "T", avg_frequency_days := 99,
    total_transactions := 2 }

/-- Modelled from the spec: days_since_prev / avg_frequency_days where
days_since_prev is the gap in days between the insider's latest transaction
and the previous one. -/
def specFrequencyRatio (t0 t1 : InsiderTransaction)
    (profile : InsiderProfile) : ℚ :=
  ((t0.transaction_date - t1.transaction_date : ℤ) : ℚ)
    / profile.avg_frequency_days

lemma frequencyPart_fires (today : ℤ) (ticker : String)
    (t0 t1 : InsiderTransaction) (rest : List InsiderTransaction)
    (profile : InsiderProfile)
    (h1 : 0 < profile.avg_frequency_days)
    (h2 : 0 < today - t0.transaction_date)
    (h3 : ((today - t0.transaction_date : ℤ) : ℚ)
        / profile.avg_frequency_days < 0.25) :
    frequencyPart today ticker (t0 :: t1 :: rest) profile
      = [{ ticker := ticker, insider_name := t0.insider_name,
           anomaly_type := .FREQUENCY,
           severity_score := min 1 (1 -
             ((((today - t0.transaction_date : ℤ) : ℚ)
               / profile.avg_frequency_days : ℚ) : ℝ)),
           z_score := 0, description := "frequency",
           transactions := [t0, t1] }] := by
  simp only [frequencyPart]
  rw [if_pos h1, if_pos h2, if_pos h3]

/-- Claim C2: on a pair of transactions 99 days apart whose latest is one
day old, _tier1_detect emits a FREQUENCY anomaly even though the spec ratio
days_since_prev / avg_frequency_days equals 1, far above the 0.25 trigger —
the code divides (today - latest date) by the average gap instead of the
gap between the latest and previous transactions. -/
theorem frequency_rule_measures_today_gap :
    (∃ a ∈ tier1Detect 200 [c2Latest, c2Prev] c2Profile "T",
        a.anomaly_type = AnomalyType.FREQUENCY)
    ∧ specFrequencyRatio c2Latest c2Prev c2Profile = 1
    ∧ (0.25 : ℚ) ≤ specFrequencyRatio c2Latest c2Prev c2Profile
    ∧ 0 < c2Profile.avg_frequency_days := by
  have h := frequencyPart_fires 200 "T" c2Latest c2Prev [] c2Profile
    (by norm_num [c2Profile]) (by norm_num [c2Latest])
    (by norm_num [c2Latest, c2Profile])
  have hx : ∃ a ∈ frequencyPart 200 "T" [c2Latest, c2Prev] c2Profile,
      a.anomaly_type = AnomalyType.FREQUENCY := by
    rw [h]
    exact ⟨_, List.mem_singleton_self _, rfl⟩
  obtain ⟨x, hmem, hty⟩ := hx
  refine ⟨⟨x, ?_, hty⟩,
    by norm_num [specFrequencyRatio, c2Latest, c2Prev, c2Profile],
    by norm_num [specFrequencyRatio, c2Latest, c2Prev, c2Profile],
    by norm_num [c2Profile]⟩
  simp only [tier1Detect, List.mem_append]
  tauto

/-! ## Claim C4: the holdings rule and full disposals -/

lemma mem_volumePart_type (ticker : String)
    (txns : List InsiderTransaction) (latest : InsiderTransaction) :
    ∀ a ∈ volumePart ticker txns latest,
      a.anomaly_type = AnomalyType.VOLUME := by
  intro a ha
  unfold volumePart at ha
  split_ifs at ha <;> simp_all

lemma mem_frequencyPart_type (today : ℤ) (ticker : String)
    (txns : List InsiderTransaction) (profile : InsiderProfile) :
    ∀ a ∈ frequencyPart today ticker txns profile,
      a.anomaly_type = AnomalyType.FREQUENCY := by
  intro a ha
  unfold frequencyPart at ha
  rcases txns with _ | ⟨t0, _ | ⟨t1, rest⟩⟩
  · cases ha
  · cases ha
  · split_ifs at ha <;> simp_all

lemma mem_holdingsPart_type (ticker : String)
    (latest : InsiderTransaction) :
    ∀ a ∈ holdingsPart ticker latest,
      a.anomaly_type = AnomalyType.HOLDINGS_PERCENTAGE := by
  intro a ha
  unfold holdingsPart at ha
  split_ifs at ha <;> simp_all

lemma holdingsPart_eq (ticker : String) (latest : InsiderTransaction)
    (v : ℚ) (hv : latest.shares_owned_after = some v) (hvpos : 0 < v)
    (hsh : 0 ≤ latest.shares) :
    holdingsPart ticker latest
      = if latest.transaction_code = TransactionCode.S
            ∧ 0.20 < latest.shares / (latest.shares + v) then
          [{ ticker := ticker, insider_name := latest.insider_name,
             anomaly_type := .HOLDINGS_PERCENTAGE,
             severity_score :=
               min 1 (((latest.shares / (latest.shares + v) : ℚ) : ℝ)),
             z_score := 0, description := "holdings",
             transactions := [latest] }]
        else [] := by
  have htr : qTruthy latest.shares_owned_after = true := by
    rw [hv]
    simp [qTruthy]
    exact ne_of_gt hvpos
  have hq : qOrZero latest.shares_owned_after = v := by simp [qOrZero, hv]
  have hpos : 0 < latest.shares + v := by linarith
  unfold holdingsPart
  rw [hq]
  by_cases hc : latest.transaction_code = TransactionCode.S
  · rw [if_pos ⟨hc, htr⟩, if_pos hpos]
    by_cases hp : (0.20 : ℚ) < latest.shares / (latest.shares + v)
    · rw [if_pos hp, if_pos ⟨hc, hp⟩]
    · rw [if_neg hp, if_neg (by tauto)]
  · rw [if_neg (by tauto), if_neg (by tauto)]

/-- The transaction of the C4 counterexample: a sale disposing of all
remaining holdings (shares_owned_after = 0). -/
def c4Tx : InsiderTransaction :=
  { ticker := "T", insider_name := "B", transaction_date := 10,
    transaction_code := .S, shares := 500, shares_owned_after := some 0,
    filing_date := 10 }

/-- Profile accompanying the C4 counterexample. -/
def c4Profile : InsiderProfile := { insider_name := "B", ticker := "T" }

/-- Claim C4 counterexample: for a sale with shares_owned_after = 0 (a known
value, pct_sold = 1 > 0.20) _tier1_detect emits no anomaly at all — Python
truthiness of `latest.shares_owned_after` treats 0 like None, so the
claimed severity-1 HOLDINGS_PERCENTAGE anomaly never fires. -/
theorem holdings_full_disposal_counterexample :
    tier1Detect 10 [c4Tx] c4Profile "T" = []
    ∧ c4Tx.transaction_code = TransactionCode.S
    ∧ c4Tx.shares_owned_after = some 0
    ∧ (0.20 : ℚ) < c4Tx.shares / (c4Tx.shares + qOrZero c4Tx.shares_owned_after) := by
  refine ⟨?_, rfl, rfl, by norm_num [c4Tx, qOrZero]⟩
  simp [tier1Detect, volumePart, frequencyPart, holdingsPart, pricedSizes,
    qTruthy, c4Tx]

/-- Claim C4 (amended): for a latest sale whose shares_owned_after is known
and nonzero, the HOLDINGS_PERCENTAGE anomaly fires exactly when
shares / (shares + shares_owned_after) > 0.20, with severity
min(1, pct_sold); a full disposal (shares_owned_after = 0) does not fire. -/
theorem holdings_rule_amended (today : ℤ) (ticker : String)
    (latest : InsiderTransaction) (rest : List InsiderTransaction)
    (profile : InsiderProfile) (v : ℚ)
    (hv : latest.shares_owned_after = some v) (hvpos : 0 < v)
    (hsh : 0 ≤ latest.shares) :
    ((∃ a ∈ tier1Detect today (latest :: rest) profile ticker,
        a.anomaly_type = AnomalyType.HOLDINGS_PERCENTAGE)
      ↔ (latest.transaction_code = TransactionCode.S
          ∧ 0.20 < latest.shares / (latest.shares + v)))
    ∧ ∀ a ∈ tier1Detect today (latest :: rest) profile ticker,
        a.anomaly_type = AnomalyType.HOLDINGS_PERCENTAGE →
          a.severity_score
            = min 1 (((latest.shares / (latest.shares + v) : ℚ) : ℝ)) := by
  have he := holdingsPart_eq ticker latest v hv hvpos hsh
  constructor
  · constructor
    · rintro ⟨a, ha, hty⟩
      simp only [tier1Detect, List.mem_append] at ha
      rcases ha with (h1 | h1) | h1
      · have h2 := mem_volumePart_type ticker (latest :: rest) latest a h1
        rw [hty] at h2
        exact absurd h2 (by decide)
      · have h2 := mem_frequencyPart_type today ticker (latest :: rest)
          profile a h1
        rw [hty] at h2
        exact absurd h2 (by decide)
      · rw [he] at h1
        by_cases hcond : latest.transaction_code = TransactionCode.S
            ∧ (0.20 : ℚ) < latest.shares / (latest.shares + v)
        · exact hcond
        · rw [if_neg hcond] at h1
          cases h1
    · rintro ⟨hc, hp⟩
      have hsing := he
      rw [if_pos ⟨hc, hp⟩] at hsing
      refine ⟨(⟨ticker, latest.insider_name, .HOLDINGS_PERCENTAGE,
          min 1 (((latest.shares / (latest.shares + v) : ℚ) : ℝ)), 0,
          "holdings", [latest]⟩ : InsiderAnomaly), ?_, rfl⟩
      simp only [tier1Detect, List.mem_append]
      refine Or.inr ?_
      rw [hsing]
      exact List.mem_singleton_self _
  · intro a ha hty
    simp only [tier1Detect, List.mem_append] at ha
    rcases ha with (h1 | h1) | h1
    · have h2 := mem_volumePart_type ticker (latest :: rest) latest a h1
      rw [hty] at h2
      exact absurd h2 (by decide)
    · have h2 := mem_frequencyPart_type today ticker (latest :: rest)
        profile a h1
      rw [hty] at h2
      exact absurd h2 (by decide)
    · rw [he] at h1
      split_ifs at h1
      · rw [List.mem_singleton] at h1
        rw [h1]
      · cases h1

/-- Witness for holdings_rule_amended: the spec scenario — a sale of 40,000
shares with 10,000 remaining fires the rule (pct_sold = 0.8 > 0.20). -/
theorem holdings_rule_amended_witness :
    ∃ a ∈ tier1Detect 5
        [{ ticker := "T", insider_name := "B", transaction_date := 5,
           transaction_code := .S, shares := 40000,
           shares_owned_after := some 10000, filing_date := 5 }]
        c4Profile "T",
      a.anomaly_type = AnomalyType.HOLDINGS_PERCENTAGE :=
  (holdings_rule_amended 5 "T"
    { ticker := "T", insider_name := "B", transaction_date := 5,
      transaction_code := .S, shares := 40000,
      shares_owned_after := some 10000, filing_date := 5 }
    [] c4Profile 10000 rfl (by norm_num) (by norm_num)).1.mpr
    ⟨rfl, by norm_num⟩

/-! ## Claim C5: per-ticker anomaly score -/

lemma foldr_max_nonneg (l : List ℝ) : 0 ≤ l.foldr max 0 := by
  induction l with
  | nil => exact le_refl 0
  | cons a t ih => exact le_trans ih (le_max_right a _)

lemma tier1Max_nonneg (anomalies : List InsiderAnomaly) :
    0 ≤ tier1Max anomalies := foldr_max_nonneg _

lemma coOccurrenceBoost_nonneg (anomalies : List InsiderAnomaly) :
    0 ≤ coOccurrenceBoost anomalies := by
  unfold coOccurrenceBoost
  split_ifs
  · exact le_min (by norm_num) (by positivity)
  · exact le_refl 0

lemma scoreBase_nonneg (anomalies : List InsiderAnomaly) (mlScore : ℝ)
    (hml : 0 ≤ mlScore) : 0 ≤ scoreBase anomalies mlScore := by
  have h1 := tier1Max_nonneg anomalies
  have h2 := coOccurrenceBoost_nonneg anomalies
  unfold scoreBase
  linarith

lemma roleStep_ge (w : ℝ) (t : InsiderTransaction) : w ≤ roleStep w t := by
  unfold roleStep
  by_cases h1 : (strContains t.insider_title.toLower "ceo"
      || strContains t.insider_title.toLower "chief executive") = true
  · rw [if_pos h1]; exact le_max_left _ _
  · rw [if_neg h1]
    by_cases h2 : (strContains t.insider_title.toLower "cfo"
        || strContains t.insider_title.toLower "chief financial") = true
    · rw [if_pos h2]; exact le_max_left _ _
    · rw [if_neg h2]
      by_cases h3 : t.is_officer = true
      · rw [if_pos h3]; exact le_max_left _ _
      · rw [if_neg h3]

lemma foldl_roleStep_ge (l : List InsiderTransaction) :
    ∀ w, w ≤ l.foldl roleStep w := by
  induction l with
  | nil => intro w; exact le_refl w
  | cons t rest ih =>
    intro w
    exact le_trans (roleStep_ge w t) (ih (roleStep w t))

lemma roleWeight_ge_one (txns : List InsiderTransaction) :
    1 ≤ roleWeight txns := foldl_roleStep_ge _ 1

lemma plannedDiscount_half (txns : List InsiderTransaction)
    (hne : txns ≠ []) (hpl : ∀ t ∈ txns.take 10, t.is_10b5_1 = true) :
    plannedDiscount txns = 1 / 2 := by
  have hlen : 1 ≤ (txns.take 10).length := by
    cases txns with
    | nil => exact absurd rfl hne
    | cons a l =>
      simp [List.length_take]
  have hfil : (txns.take 10).filter (fun t => t.is_10b5_1) = txns.take 10 :=
    List.filter_eq_self.mpr (fun a ha => by
      simp only [hpl a ha])
  have hcount : plannedCount txns = (txns.take 10).length := by
    unfold plannedCount
    rw [hfil]
  have hne0 : (((txns.take 10).length : ℕ) : ℝ) ≠ 0 := by
    have : (0 : ℝ) < ((txns.take 10).length : ℝ) := by
      exact_mod_cast Nat.lt_of_lt_of_le Nat.zero_lt_one hlen
    linarith
  unfold plannedDiscount plannedRatioOf
  rw [hcount, max_eq_left hlen, div_self hne0]
  norm_num

lemma clip01_le (x : ℝ) (hx : 0 ≤ x) : clip01 x ≤ x := by
  unfold clip01
  rw [max_eq_left hx]
  exact min_le_left _ _

/-- Claim C5: for every analysis, _compute_anomaly_score equals
clip(base · role_weight · planned_discount, 0, 1) with
base = 0.6·tier1_max + 0.4·ml_score + co-occurrence (the early return for
no anomalies and ml_score = 0 coincides with the formula); and when every
transaction among the 10 most recent is a planned 10b5-1 trade, the score
is at most 0.5 · base · role_weight. -/
theorem anomaly_score_planned_discount (anomalies : List InsiderAnomaly)
    (mlScore : ℝ) (txns : List InsiderTransaction) :
    computeAnomalyScore anomalies mlScore txns
      = clip01 (scoreBase anomalies mlScore * roleWeight txns
          * plannedDiscount txns)
    ∧ (0 ≤ mlScore → txns ≠ [] →
        (∀ t ∈ txns.take 10, t.is_10b5_1 = true) →
        computeAnomalyScore anomalies mlScore txns
          ≤ 1 / 2 * (scoreBase anomalies mlScore * roleWeight txns)) := by
  have heq : computeAnomalyScore anomalies mlScore txns
      = clip01 (scoreBase anomalies mlScore * roleWeight txns
          * plannedDiscount txns) := by
    unfold computeAnomalyScore
    split_ifs with h
    · obtain ⟨hemp, hzero⟩ := h
      have hnil : anomalies = [] := by
        simpa using hemp
      rw [hnil, hzero]
      simp [scoreBase, tier1Max, coOccurrenceBoost, typeCount, clip01]
    · rfl
  refine ⟨heq, ?_⟩
  intro hml hne hpl
  rw [heq, plannedDiscount_half txns hne hpl]
  have hbase := scoreBase_nonneg anomalies mlScore hml
  have hrw := roleWeight_ge_one txns
  have hx : 0 ≤ scoreBase anomalies mlScore * roleWeight txns * (1 / 2) := by
    have h1 : (0 : ℝ) ≤ roleWeight txns := le_trans zero_le_one hrw
    have h2 := mul_nonneg hbase h1
    linarith
  calc clip01 (scoreBase anomalies mlScore * roleWeight txns * (1 / 2))
      ≤ scoreBase anomalies mlScore * roleWeight txns * (1 / 2) :=
        clip01_le _ hx
    _ = 1 / 2 * (scoreBase anomalies mlScore * roleWeight txns) := by ring

/-- A planned 10b5-1 sale used in the C5 witness. -/
def c5Tx : InsiderTransaction :=
  { ticker := "T", insider_name := "P", transaction_date := 0,
    transaction_code := .S, shares := 1, is_10b5_1 := true,
    filing_date := 0 }

/-- Witness for anomaly_score_planned_discount on a single planned trade:
the unconditional scoring formula, and the discharged planned-trade bound. -/
theorem anomaly_score_planned_discount_witness :
    computeAnomalyScore [] 1 [c5Tx]
      = clip01 (scoreBase [] 1 * roleWeight [c5Tx] * plannedDiscount [c5Tx])
    ∧ computeAnomalyScore [] 1 [c5Tx]
        ≤ 1 / 2 * (scoreBase [] 1 * roleWeight [c5Tx]) :=
  ⟨(anomaly_score_planned_discount [] 1 [c5Tx]).1,
   (anomaly_score_planned_discount [] 1 [c5Tx]).2 (by norm_num) (by simp)
     (by
       intro t ht
       simp at ht
       rw [ht]
       rfl)⟩

/-! ## Claim C3: the volume rule and the spec scenario -/

lemma volumePart_eq (ticker : String) (txns : List InsiderTransaction)
    (latest : InsiderTransaction) :
    volumePart ticker txns latest
      = if 3 ≤ (pricedSizes txns).length
            ∧ 0 < sampleStd (pricedSizes txns)
            ∧ 2 < |volumeZ txns latest| then
          [{ ticker := ticker, insider_name := latest.insider_name,
             anomaly_type := .VOLUME,
             severity_score := min 1 (|volumeZ txns latest| / 5),
             z_score := volumeZ txns latest, description := "volume",
             transactions := [latest] }]
        else [] := by
  unfold volumePart
  by_cases h1 : 3 ≤ (pricedSizes txns).length
  · rw [if_pos h1]
    by_cases h2 : 0 < sampleStd (pricedSizes txns)
    · rw [if_pos h2]
      by_cases h3 : 2 < |volumeZ txns latest|
      · rw [if_pos h3, if_pos ⟨h1, h2, h3⟩]
      · rw [if_neg h3, if_neg (by tauto)]
    · rw [if_neg h2, if_neg (by tauto)]
  · rw [if_neg h1, if_neg (by tauto)]

/-- A sale by Jane in AAPL at $150 per share on day d. -/
def mkJaneTx (d : ℤ) (sh : ℚ) : InsiderTransaction :=
  { ticker := "AAPL", insider_name := "Jane", transaction_date := d,
    transaction_code := .S, shares := sh, price_per_share := some 150,
    filing_date := d }

/-- The five historical sales of 1,000 shares, 30 days apart. -/
def c3Rest : List InsiderTransaction :=
  [mkJaneTx 970 1000, mkJaneTx 940 1000, mkJaneTx 910 1000,
   mkJaneTx 880 1000, mkJaneTx 850 1000]

/-- The spec scenario: a new sale of 50,000 shares on top of the history. -/
def c3Txns : List InsiderTransaction := mkJaneTx 1000 50000 :: c3Rest

/-- Jane's profile for the scenario. -/
def c3Profile : InsiderProfile :=
  { insider_name := "Jane", ticker := "AAPL", avg_frequency_days := 30,
    total_transactions := 6 }

lemma c3_sizes : pricedSizes c3Txns
    = [7500000, 150000, 150000, 150000, 150000, 150000] := by
  have hfil : (c3Txns.filter fun t => qTruthy t.price_per_share)
      = c3Txns := by
    apply List.filter_eq_self.mpr
    intro a ha
    fin_cases ha <;> simp [qTruthy, mkJaneTx]
  unfold pricedSizes
  rw [hfil]
  simp [c3Txns, c3Rest, mkJaneTx, qOrZero]
  norm_num

lemma c3_mean : qMean (pricedSizes c3Txns) = 1375000 := by
  rw [c3_sizes]
  norm_num [qMean, List.sum_cons]

lemma c3_var : sampleVar (pricedSizes c3Txns) = 9003750000000 := by
  unfold sampleVar
  rw [c3_sizes]
  norm_num [qMean, List.sum_cons]

lemma c3_std : sampleStd (pricedSizes c3Txns)
    = Real.sqrt 9003750000000 := by
  unfold sampleStd
  rw [c3_var]
  norm_num

lemma c3_std_pos : 0 < sampleStd (pricedSizes c3Txns) := by
  rw [c3_std]
  exact Real.sqrt_pos.mpr (by norm_num)

lemma c3_z_eq : volumeZ c3Txns (mkJaneTx 1000 50000)
    = 6125000 / Real.sqrt 9003750000000 := by
  unfold volumeZ
  rw [c3_mean, c3_std]
  norm_num [latestSize, mkJaneTx, qOrZero]

lemma c3_z_bounds : 2 < volumeZ c3Txns (mkJaneTx 1000 50000)
    ∧ volumeZ c3Txns (mkJaneTx 1000 50000) < 3 := by
  rw [c3_z_eq]
  have hs : (0 : ℝ) < Real.sqrt 9003750000000 :=
    Real.sqrt_pos.mpr (by norm_num)
  constructor
  · rw [lt_div_iff₀ hs]
    have h1 : Real.sqrt 9003750000000 < 3062500 :=
      (Real.sqrt_lt' (by norm_num)).mpr (by norm_num)
    linarith
  · rw [div_lt_iff₀ hs]
    have h2 : (2041700 : ℝ) < Real.sqrt 9003750000000 :=
      (Real.lt_sqrt (by norm_num)).mpr (by norm_num)
    linarith

/-- The VOLUME anomaly the code emits on the spec scenario. -/
noncomputable def c3Anomaly : InsiderAnomaly :=
  { ticker := "AAPL", insider_name := "Jane", anomaly_type := .VOLUME,
    severity_score := min 1 (|volumeZ c3Txns (mkJaneTx 1000 50000)| / 5),
    z_score := volumeZ c3Txns (mkJaneTx 1000 50000),
    description := "volume", transactions := [mkJaneTx 1000 50000] }

lemma c3_abs_z : |volumeZ c3Txns (mkJaneTx 1000 50000)|
    = volumeZ c3Txns (mkJaneTx 1000 50000) :=
  abs_of_pos (by linarith [c3_z_bounds.1])

lemma c3_output : tier1Detect 1000 c3Txns c3Profile "AAPL"
    = [c3Anomaly] := by
  have hsplit : tier1Detect 1000 c3Txns c3Profile "AAPL"
      = volumePart "AAPL" c3Txns (mkJaneTx 1000 50000)
        ++ frequencyPart 1000 "AAPL" c3Txns c3Profile
        ++ holdingsPart "AAPL" (mkJaneTx 1000 50000) := rfl
  have hvol : volumePart "AAPL" c3Txns (mkJaneTx 1000 50000)
      = [c3Anomaly] := by
    rw [volumePart_eq]
    rw [if_pos ⟨by rw [c3_sizes]; norm_num, c3_std_pos,
      by rw [c3_abs_z]; exact c3_z_bounds.1⟩]
    rfl
  have hfreq : frequencyPart 1000 "AAPL" c3Txns c3Profile = [] := by
    have : ¬(0 : ℤ) < 1000 - (mkJaneTx 1000 50000).transaction_date := by
      norm_num [mkJaneTx]
    simp only [c3Txns, c3Rest, frequencyPart]
    rw [if_pos (by norm_num [c3Profile]), if_neg this]
  have hhold : holdingsPart "AAPL" (mkJaneTx 1000 50000) = [] := by
    simp [holdingsPart, mkJaneTx, qTruthy]
  rw [hsplit, hvol, hfreq, hhold]
  simp

/-- Claim C3 counterexample: on the spec scenario (five sales of 1,000
shares at $150 followed by a sale of 50,000 at $150) the code emits exactly
one VOLUME anomaly, but its z-score is between 2 and 3 (≈ 2.04, the code
computes mean and sample deviation over all six priced transactions
including the latest), and its severity min(1, |z|/5) is below 0.6 — not
z ≥ 3 and severity ≥ 0.6 as claimed. -/
theorem volume_scenario_counterexample :
    tier1Detect 1000 c3Txns c3Profile "AAPL" = [c3Anomaly]
    ∧ c3Anomaly.anomaly_type = AnomalyType.VOLUME
    ∧ 2 < c3Anomaly.z_score ∧ c3Anomaly.z_score < 3
    ∧ c3Anomaly.severity_score < 0.6 := by
  have hz := c3_z_bounds
  refine ⟨c3_output, rfl, hz.1, hz.2, ?_⟩
  show min 1 (|volumeZ c3Txns (mkJaneTx 1000 50000)| / 5) < 0.6
  rw [c3_abs_z]
  have hd : volumeZ c3Txns (mkJaneTx 1000 50000) / 5 < 0.6 := by
    linarith [hz.2]
  exact lt_of_le_of_lt (min_le_right _ _) hd

/-- Claim C3 (amended): the VOLUME anomaly fires exactly when there are at
least 3 priced transactions in the insider's window, their sample standard
deviation (ddof = 1, computed over all priced transactions including the
latest) is positive, and |z| > 2; its z_score is z and its severity is
min(1, |z|/5); it never fires when the sample variance is 0.  On the spec
scenario the emitted VOLUME anomaly has 2 < z < 3 and severity < 0.6. -/
theorem volume_rule_amended (today : ℤ) (ticker : String)
    (latest : InsiderTransaction) (rest : List InsiderTransaction)
    (profile : InsiderProfile) :
    ((∃ a ∈ tier1Detect today (latest :: rest) profile ticker,
        a.anomaly_type = AnomalyType.VOLUME)
      ↔ (3 ≤ (pricedSizes (latest :: rest)).length
          ∧ 0 < sampleStd (pricedSizes (latest :: rest))
          ∧ 2 < |volumeZ (latest :: rest) latest|))
    ∧ (∀ a ∈ tier1Detect today (latest :: rest) profile ticker,
        a.anomaly_type = AnomalyType.VOLUME →
          a.z_score = volumeZ (latest :: rest) latest
          ∧ a.severity_score
              = min 1 (|volumeZ (latest :: rest) latest| / 5))
    ∧ (sampleVar (pricedSizes (latest :: rest)) = 0 →
        ∀ a ∈ tier1Detect today (latest :: rest) profile ticker,
          a.anomaly_type ≠ AnomalyType.VOLUME) := by
  have he := volumePart_eq ticker (latest :: rest) latest
  refine ⟨⟨?_, ?_⟩, ?_, ?_⟩
  · rintro ⟨a, ha, hty⟩
    simp only [tier1Detect, List.mem_append] at ha
    rcases ha with (h1 | h1) | h1
    · rw [he] at h1
      by_cases hcond : 3 ≤ (pricedSizes (latest :: rest)).length
          ∧ 0 < sampleStd (pricedSizes (latest :: rest))
          ∧ 2 < |volumeZ (latest :: rest) latest|
      · exact hcond
      · rw [if_neg hcond] at h1
        cases h1
    · have h2 := mem_frequencyPart_type today ticker (latest :: rest)
        profile a h1
      rw [hty] at h2
      exact absurd h2 (by decide)
    · have h2 := mem_holdingsPart_type ticker latest a h1
      rw [hty] at h2
      exact absurd h2 (by decide)
  · intro hcond
    refine ⟨(⟨ticker, latest.insider_name, .VOLUME,
        min 1 (|volumeZ (latest :: rest) latest| / 5),
        volumeZ (latest :: rest) latest, "volume",
        [latest]⟩ : InsiderAnomaly), ?_, rfl⟩
    simp only [tier1Detect, List.mem_append]
    refine Or.inl (Or.inl ?_)
    rw [he, if_pos hcond]
    exact List.mem_singleton_self _
  · intro a ha hty
    simp only [tier1Detect, List.mem_append] at ha
    rcases ha with (h1 | h1) | h1
    · rw [he] at h1
      split_ifs at h1
      · rw [List.mem_singleton] at h1
        rw [h1]
        exact ⟨rfl, rfl⟩
      · cases h1
    · have h2 := mem_frequencyPart_type today ticker (latest :: rest)
        profile a h1
      rw [hty] at h2
      exact absurd h2 (by decide)
    · have h2 := mem_holdingsPart_type ticker latest a h1
      rw [hty] at h2
      exact absurd h2 (by decide)
  · intro hvar a ha hty
    have hstd : sampleStd (pricedSizes (latest :: rest)) = 0 := by
      unfold sampleStd
      rw [hvar]
      norm_num
    simp only [tier1Detect, List.mem_append] at ha
    rcases ha with (h1 | h1) | h1
    · have hnot : ¬(3 ≤ (pricedSizes (latest :: rest)).length
          ∧ 0 < sampleStd (pricedSizes (latest :: rest))
          ∧ 2 < |volumeZ (latest :: rest) latest|) := by
        rintro ⟨-, hb, -⟩
        rw [hstd] at hb
        exact lt_irrefl 0 hb
      rw [he, if_neg hnot] at h1
      cases h1
    · have h2 := mem_frequencyPart_type today ticker (latest :: rest)
        profile a h1
      rw [hty] at h2
      exact absurd h2 (by decide)
    · have h2 := mem_holdingsPart_type ticker latest a h1
      rw [hty] at h2
      exact absurd h2 (by decide)

/-- Witness for volume_rule_amended: the spec scenario fires the rule. -/
theorem volume_rule_amended_witness :
    ∃ a ∈ tier1Detect 1000 (mkJaneTx 1000 50000 :: c3Rest) c3Profile "AAPL",
      a.anomaly_type = AnomalyType.VOLUME :=
  (volume_rule_amended 1000 "AAPL" (mkJaneTx 1000 50000) c3Rest
    c3Profile).1.mpr
    ⟨by rw [show pricedSizes (mkJaneTx 1000 50000 :: c3Rest)
          = pricedSizes c3Txns from rfl, c3_sizes]; norm_num,
     c3_std_pos, by rw [show volumeZ (mkJaneTx 1000 50000 :: c3Rest)
          (mkJaneTx 1000 50000) = volumeZ c3Txns (mkJaneTx 1000 50000)
          from rfl, c3_abs_z]; exact c3_z_bounds.1⟩

end ETeamSignal
